import Mathlib

/-
Verification development for the `LibrandaClient` WebSocket client
(src/src/index.js). The class is shallowly embedded as a state machine:
a `World` holds the client's own fields together with the pieces of the
JavaScript runtime the class interacts with (the set of live WebSocket
objects with their ready states, and the set of pending `setTimeout`
timers). Externally triggered activity — public API calls, transport
events (`open`/`close`/`error`/`message`) and timer firings — is an
inductive `Ev` type, and `run` folds a list of events over a world, so
reachability from the constructor state is expressible and executable.

Observable side effects that in JavaScript escape the object (frames
written to the socket, invocations of the user's ready callback,
dispatches to the event registry, plugin initialize/cleanup invocations,
console.error logging) are recorded in append-only logs inside `World`.

Application callbacks registered in the event registry are modelled as
opaque identifiers (`Nat`). In the `World` model they are inert
observers; the registry-level behaviour of callbacks that throw or
unregister handlers while a dispatch is running is modelled faithfully
in the `Reg` namespace below, which mirrors the two-level
Map/Map/Set structure of `eventHandlers` together with JavaScript's
live `Set` iteration semantics for deletions.

Mutation of shared JavaScript objects (the question whether
`getMetadata`'s spread copy is deep or shallow) needs object identity,
so the metadata store is additionally modelled in the `MetaHeap`
namespace with an explicit heap of addressed objects.
-/

namespace Libranda

/-- Ready states of a WebSocket object (`WebSocketImpl.CONNECTING` /
`OPEN` / `CLOSING` / `CLOSED`). -/
inductive RS where
  | connecting
  | open_
  | closing
  | closed
deriving DecidableEq, Repr

/-- One WebSocket object created by `new WebSocketImpl(url)`, identified by
an allocation id; the client's handlers are attached to every socket it
creates, so events on a stale socket still mutate the client. -/
structure Socket where
  sid : Nat
  rs : RS
deriving DecidableEq, Repr

/-- Value of `message.data` in a parsed inbound frame. `obj c` is an object
whose `clientId` property is `c` (`none` when the property is absent, i.e.
reads as `undefined`); `nullVal` is an explicit JSON `null` (property access
throws); `prim` is a non-null primitive (property access yields `undefined`
without throwing). -/
inductive MsgData where
  | obj (clientId : Option String)
  | nullVal
  | prim
deriving DecidableEq, Repr

/-- Result of evaluating `message.data.clientId`: an error when the access
throws (`data` is `undefined` or `null`), otherwise the value read
(`none` standing for `undefined`). -/
def dotClientId : Option MsgData → Except Unit (Option String)
  | none => Except.error ()
  | some MsgData.nullVal => Except.error ()
  | some MsgData.prim => Except.ok none
  | some (MsgData.obj c) => Except.ok c

/-- Parsed inbound frame. `ns` and `event` are `""` when the field is
absent or empty — both are falsy in the `message.namespace &&
message.event` guard, so the two cases behave identically. -/
structure WireMsg where
  ns : String
  event : String
  data : Option MsgData
deriving DecidableEq, Repr

/-- Truthiness of the nullable `clientId` field: `null`/`undefined` and the
empty string are falsy in JavaScript. -/
def truthyId : Option String → Bool
  | none => false
  | some s => s ≠ ""

/-- Plugin object as far as the client inspects it: its `id` property
(`""` models an absent/empty id — both falsy), whether it has
`initialize`/`cleanup` functions, and whether those throw when invoked. -/
structure Plugin where
  pid : String
  hasInit : Bool
  initThrows : Bool
  hasCleanup : Bool
  cleanupThrows : Bool
deriving DecidableEq, Repr

/-- One serialized outbound frame as written by `send`: the payload is
`{namespace, event, data: {...data, metadata: this.metadata}}`, so the
frame records the spread-in data fields and the metadata snapshot taken
at send time. -/
structure Frame where
  ns : String
  event : String
  dataFields : List (String × String)
  metaSnapshot : List (String × String)
deriving DecidableEq, Repr

/-- Full state: the `LibrandaClient` instance's fields, the runtime pieces
it interacts with, and append-only logs of its externally observable
effects. -/
structure World where
  autoReconnect : Bool
  reconnectInterval : Nat
  wsRef : Option Nat
  isConnecting : Bool
  reconnectTimer : Option Nat
  clientId : Option String
  onReady : Option Nat
  metadata : List (String × String)
  eventHandlers : List ((String × String) × List Nat)
  plugins : List Plugin
  sockets : List Socket
  pendingTimers : List Nat
  nextSid : Nat
  nextTid : Nat
  dispatchLog : List (String × String × List Nat)
  readyLog : List (Nat × Option String)
  sentLog : List Frame
  initLog : List String
  cleanupLog : List String
  errLog : Nat
  timerFireLog : List Nat
deriving DecidableEq, Repr

/-- Constructor state: `new LibrandaClient(options)` with
`options.autoReconnect !== false` and `options.reconnectInterval || 5000`. -/
def mkWorld (autoReconnectOpt : Option Bool) (intervalOpt : Option Nat) : World where
  autoReconnect := autoReconnectOpt ≠ some false
  reconnectInterval := if intervalOpt.getD 0 = 0 then 5000 else intervalOpt.getD 0
  wsRef := none
  isConnecting := false
  reconnectTimer := none
  clientId := none
  onReady := none
  metadata := []
  eventHandlers := []
  plugins := []
  sockets := []
  pendingTimers := []
  nextSid := 0
  nextTid := 0
  dispatchLog := []
  readyLog := []
  sentLog := []
  initLog := []
  cleanupLog := []
  errLog := 0
  timerFireLog := []

/-- Ready state of the socket with id `sid`, when it exists. -/
def rsOf (w : World) (sid : Nat) : Option RS :=
  (w.sockets.find? (fun s => s.sid = sid)).map Socket.rs

/-- Replaces the ready state of socket `sid`. -/
def setRS (w : World) (sid : Nat) (r : RS) : World :=
  { w with sockets := w.sockets.map (fun s => if s.sid = sid then { s with rs := r } else s) }

/-- Embedding of the `if (this.reconnectTimer) { clearTimeout(...);
this.reconnectTimer = null; }` pattern: removes the referenced timer from
the runtime's pending set and nulls the reference. -/
def clearRT (w : World) : World :=
  match w.reconnectTimer with
  | none => w
  | some t => { w with pendingTimers := w.pendingTimers.erase t, reconnectTimer := none }

/-- Callback ids currently registered for a `(namespace, event)` pair, in
the flattened view of `eventHandlers` the `World` model keeps. -/
def handlersFor (w : World) (ns ev : String) : List Nat :=
  ((w.eventHandlers.find? (fun p => p.1 = (ns, ev))).map Prod.snd).getD []

/-- Embedding of `_handleEvent(namespace, event, data)` at the `World`
level: records the dispatch and the callback ids invoked. Callbacks are
inert observers here; their throw/unregister behaviour during a dispatch
is modelled faithfully in the `Reg` namespace. -/
def handleEvent (w : World) (ns ev : String) : World :=
  { w with dispatchLog := w.dispatchLog ++ [(ns, ev, handlersFor w ns ev)] }

/-- Embedding of `connect()`: a no-op when the current socket is
`CONNECTING`/`OPEN` or `isConnecting` is set; otherwise marks
`isConnecting` and allocates a fresh socket in the `CONNECTING` state. -/
def connect (w : World) : World :=
  if (match w.wsRef with
      | some sid => rsOf w sid = some RS.connecting || rsOf w sid = some RS.open_
      | none => false : Bool) then w
  else if w.isConnecting then w
  else
    { w with isConnecting := true,
             sockets := w.sockets ++ [⟨w.nextSid, RS.connecting⟩],
             wsRef := some w.nextSid,
             nextSid := w.nextSid + 1 }

/-- Body of the `ws.onopen` handler: clears `isConnecting`, cancels the
referenced reconnect timer, and dispatches `system:connected`. -/
def onOpen (w : World) : World :=
  handleEvent (clearRT { w with isConnecting := false }) "system" "connected"

/-- Body of the `ws.onclose` handler: clears `isConnecting` and `clientId`,
dispatches `system:disconnected`, and — when `autoReconnect` holds —
schedules a fresh reconnect timer, overwriting (without cancelling) any
previously referenced one. -/
def onClose (w : World) : World :=
  let w1 := handleEvent { w with isConnecting := false, clientId := none }
              "system" "disconnected"
  if w1.autoReconnect then
    { w1 with pendingTimers := w1.pendingTimers ++ [w1.nextTid],
              reconnectTimer := some w1.nextTid,
              nextTid := w1.nextTid + 1 }
  else w1

/-- Body of the `ws.onerror` handler: dispatches `system:error` and changes
no other state. -/
def onError (w : World) : World :=
  handleEvent w "system" "error"

/-- Body of the `ws.onmessage` handler. `none` models a payload
`JSON.parse` rejects (caught, logged); a falsy `namespace` or `event`
drops the frame silently; a `system:init` frame evaluates
`message.data.clientId` — which can itself throw, landing in the same
catch, so the frame is dropped without dispatch — and otherwise stores the
id, fires the pending ready callback, and still dispatches the frame. -/
def onMessage (w : World) (m : Option WireMsg) : World :=
  match m with
  | none => { w with errLog := w.errLog + 1 }
  | some msg =>
    if msg.ns ≠ "" ∧ msg.event ≠ "" then
      if msg.ns = "system" ∧ msg.event = "init" then
        match dotClientId msg.data with
        | Except.error _ => { w with errLog := w.errLog + 1 }
        | Except.ok cid =>
          let w1 := { w with clientId := cid }
          let w2 := match w1.onReady with
                    | some cb => { w1 with readyLog := w1.readyLog ++ [(cb, cid)] }
                    | none => w1
          handleEvent w2 msg.ns msg.event
      else handleEvent w msg.ns msg.event
    else w

/-- Embedding of `unregisterPlugin(pluginId)`: a no-op for an unknown id;
otherwise invokes `cleanup` when present — a throwing cleanup is caught
and logged — and removes the plugin. -/
def unregisterPlugin (w : World) (pid : String) : World :=
  match w.plugins.find? (fun p => p.pid = pid) with
  | none => w
  | some p =>
    let w1 :=
      if p.hasCleanup then
        if p.cleanupThrows then
          { w with cleanupLog := w.cleanupLog ++ [pid], errLog := w.errLog + 1 }
        else { w with cleanupLog := w.cleanupLog ++ [pid] }
      else w
    { w1 with plugins := w1.plugins.filter (fun q => q.pid ≠ pid) }

/-- Embedding of `disconnect()`: always cancels the referenced reconnect
timer; only when a transport instance exists does it additionally flip
`autoReconnect` off, close the socket, null the reference, clear
`clientId`, and tear down every plugin. -/
def disconnect (w : World) : World :=
  let w1 := clearRT w
  match w1.wsRef with
  | none => w1
  | some sid =>
    let w2 := { w1 with autoReconnect := false }
    let w3 :=
      match rsOf w2 sid with
      | some RS.connecting => setRS w2 sid RS.closing
      | some RS.open_ => setRS w2 sid RS.closing
      | _ => w2
    let w4 := { w3 with wsRef := none, clientId := none }
    let w5 := (w4.plugins.map Plugin.pid).foldl unregisterPlugin w4
    { w5 with plugins := [] }

/-- Embedding of `registerEvent(namespace, event, callback)` on the
flattened view: creates the entry on demand and adds the callback with
`Set` semantics (no duplicate entry). -/
def registerEvent (w : World) (ns ev : String) (cb : Nat) : World :=
  match w.eventHandlers.find? (fun p => p.1 = (ns, ev)) with
  | none => { w with eventHandlers := w.eventHandlers ++ [((ns, ev), [cb])] }
  | some entry =>
    if cb ∈ entry.2 then w
    else
      { w with eventHandlers :=
          w.eventHandlers.map (fun p => if p.1 = (ns, ev) then (p.1, p.2 ++ [cb]) else p) }

/-- Embedding of the unregister capability returned by `registerEvent`:
deletes the callback from that pair's set (idempotent). -/
def unregEvent (w : World) (ns ev : String) (cb : Nat) : World :=
  { w with eventHandlers :=
      w.eventHandlers.map (fun p => if p.1 = (ns, ev) then (p.1, p.2.erase cb) else p) }

/-- Embedding of `send(namespace, event, data)`: throws (the `Option
String` component) when no socket is referenced or the referenced socket
is not `OPEN`, writing nothing; otherwise writes exactly one frame whose
`data.metadata` is the current metadata. -/
def send (w : World) (ns ev : String) (dataFields : List (String × String)) :
    World × Option String :=
  match w.wsRef with
  | none => (w, some "WebSocket is not connected")
  | some sid =>
    if rsOf w sid = some RS.open_ then
      ({ w with sentLog := w.sentLog ++ [⟨ns, ev, dataFields, w.metadata⟩] }, none)
    else (w, some "WebSocket is not connected")

/-- Embedding of `setMetadata(metadata)`: shallow merge, keys present in
the update win, surviving keys keep their position, new keys append. -/
def setMetadata (w : World) (patch : List (String × String)) : World :=
  { w with metadata :=
      w.metadata.map (fun kv =>
        match patch.find? (fun kv' => kv'.1 = kv.1) with
        | some kv' => kv'
        | none => kv)
      ++ patch.filter (fun kv' => ¬ (w.metadata.map Prod.fst).contains kv'.1) }

/-- Embedding of `getMetadata()` at the `World` level: the spread copy of
the metadata map as a value. Object identity and aliasing of nested values
are modelled in the `MetaHeap` namespace. -/
def getMetadata (w : World) : List (String × String) :=
  w.metadata

/-- Embedding of `ready(callback)`: with a truthy `clientId` the callback
runs synchronously at once; otherwise it is stored in the single
`onReady` slot (replacing any previous one). -/
def ready (w : World) (cb : Nat) : World :=
  if truthyId w.clientId then
    { w with readyLog := w.readyLog ++ [(cb, w.clientId)] }
  else { w with onReady := some cb }

/-- Embedding of `registerPlugin(plugin)`: throws (second component)
without touching any state when the id is falsy or already registered;
otherwise stores the plugin and then invokes `initialize` when present —
with no surrounding try/catch, so a throwing initializer propagates to the
caller after the plugin is already stored. -/
def registerPlugin (w : World) (p : Plugin) : World × Option String :=
  if p.pid = "" then (w, some "Plugin must have an id property")
  else if w.plugins.any (fun q => q.pid = p.pid) then
    (w, some "Plugin is already registered")
  else
    let w1 := { w with plugins := w.plugins ++ [p] }
    if p.hasInit then
      let w2 := { w1 with initLog := w1.initLog ++ [p.pid] }
      if p.initThrows then (w2, some "initialize threw") else (w2, none)
    else (w1, none)

/-- Embedding of `getPlugins()`. -/
def getPlugins (w : World) : List Plugin :=
  w.plugins

/-- Embedding of `isConnected()`: a socket is referenced and reports
`OPEN`. -/
def isConnected (w : World) : Bool :=
  match w.wsRef with
  | none => false
  | some sid => rsOf w sid = some RS.open_

/-- Embedding of `getId()`. -/
def getId (w : World) : Option String :=
  w.clientId

/-- Externally triggered activity: public API calls, transport events on a
named socket, and timer firings. -/
inductive Ev where
  | connectCall
  | disconnectCall
  | wsOpen (sid : Nat)
  | wsClose (sid : Nat)
  | wsError (sid : Nat)
  | wsMessage (sid : Nat) (m : Option WireMsg)
  | timerFire (tid : Nat)
  | readyCall (cb : Nat)
  | regEvent (ns ev : String) (cb : Nat)
  | unregEventCall (ns ev : String) (cb : Nat)
  | sendCall (ns ev : String) (dataFields : List (String × String))
  | setMetaCall (patch : List (String × String))
  | regPlugin (p : Plugin)
  | unregPluginCall (pid : String)
deriving DecidableEq, Repr

/-- Applies one external event. Transport events carry the runtime's
validity conditions (`open` only fires on a `CONNECTING` socket, `close`
on a not-yet-`CLOSED` one, `message` on an `OPEN` one; a timer only fires
while pending); events on stale sockets still run the client's handlers,
exactly as the attached closures do in JavaScript. A firing reconnect
timer leaves the runtime's pending set and invokes `connect()`. -/
def applyEv (w : World) : Ev → World
  | Ev.connectCall => connect w
  | Ev.disconnectCall => disconnect w
  | Ev.wsOpen sid =>
    if rsOf w sid = some RS.connecting then onOpen (setRS w sid RS.open_) else w
  | Ev.wsClose sid =>
    if rsOf w sid = none ∨ rsOf w sid = some RS.closed then w
    else onClose (setRS w sid RS.closed)
  | Ev.wsError sid =>
    if rsOf w sid = none then w else onError w
  | Ev.wsMessage sid m =>
    if rsOf w sid = some RS.open_ then onMessage w m else w
  | Ev.timerFire tid =>
    if tid ∈ w.pendingTimers then
      connect { w with pendingTimers := w.pendingTimers.erase tid,
                       timerFireLog := w.timerFireLog ++ [tid] }
    else w
  | Ev.readyCall cb => ready w cb
  | Ev.regEvent ns ev cb => registerEvent w ns ev cb
  | Ev.unregEventCall ns ev cb => unregEvent w ns ev cb
  | Ev.sendCall ns ev d => (send w ns ev d).1
  | Ev.setMetaCall patch => setMetadata w patch
  | Ev.regPlugin p => (registerPlugin w p).1
  | Ev.unregPluginCall pid => unregisterPlugin w pid

/-- Runs a list of external events. -/
def run (w : World) : List Ev → World
  | [] => w
  | e :: es => run (applyEv w e) es

/-! ## Event registry with reentrant callbacks

Faithful model of `eventHandlers` — a `Map` from namespace to a `Map`
from event name to a `Set` of callbacks — together with `_handleEvent`'s
iteration. Callbacks are opaque ids whose behaviour under invocation is
an environment: a callback either returns, throws (the `try`/`catch`
inside the loop swallows it), or calls an unregister capability. The
iteration follows JavaScript's live `Set` semantics for deletions: the
snapshot taken when the loop starts is walked in insertion order, and an
element deleted before its turn is skipped. -/

namespace Reg

/-- Association-list lookup by key (insertion-ordered `Map.get`). -/
def alGet? {β : Type} (l : List (String × β)) (k : String) : Option β :=
  (l.find? (fun p => p.1 = k)).map Prod.snd

/-- Updates the value at a key in place, touching nothing else
(`Map.set` for a present key). -/
def alUpdate {β : Type} (l : List (String × β)) (k : String) (f : β → β) :
    List (String × β) :=
  l.map (fun p => if p.1 = k then (p.1, f p.2) else p)

/-- The two-level `eventHandlers` structure: namespace → event → callback
set (the set kept as an insertion-ordered duplicate-free list). -/
abbrev Registry := List (String × List (String × List Nat))

/-- Behaviour of `Set.add`: a no-op on a present element. -/
def addCb (s : List Nat) (cb : Nat) : List Nat :=
  if cb ∈ s then s else s ++ [cb]

/-- Embedding of `registerEvent(namespace, event, callback)`: creates the
intermediate map and the set on demand, then `Set.add`s the callback. -/
def registerEvent (R : Registry) (ns ev : String) (cb : Nat) : Registry :=
  let R1 := if (alGet? R ns).isSome then R else R ++ [(ns, [])]
  alUpdate R1 ns (fun m =>
    let m1 := if (alGet? m ev).isSome then m else m ++ [(ev, [])]
    alUpdate m1 ev (fun s => addCb s cb))

/-- Embedding of the unregister capability returned by `registerEvent`:
`eventCallbacks.delete(callback)` on that pair's set. -/
def removeCb (R : Registry) (ns ev : String) (cb : Nat) : Registry :=
  alUpdate R ns (fun m => alUpdate m ev (fun s => s.erase cb))

/-- Callback set currently registered for a pair. -/
def handlers (R : Registry) (ns ev : String) : List Nat :=
  ((alGet? R ns).bind (fun m => alGet? m ev)).getD []

/-- Behaviour of one callback when invoked: return normally, throw, or
call an unregister capability for some registration. -/
inductive CbAct where
  | ok
  | throws
  | unreg (ns ev : String) (cb : Nat)
deriving DecidableEq, Repr

/-- Tests whether an action is an unregistration. -/
def isUnreg : CbAct → Bool
  | CbAct.unreg _ _ _ => true
  | _ => false

/-- Result of a dispatch: the registry afterwards, the callbacks invoked
in order, and how many thrown exceptions the loop's `catch` swallowed. -/
structure DispatchResult where
  reg : Registry
  invoked : List Nat
  caught : Nat
deriving DecidableEq, Repr

/-- The `for (const callback of eventCallbacks)` loop: walks the snapshot
in order, skips an element no longer in the live set, invokes the rest
with each invocation wrapped in `try`/`catch`, and applies the callback's
own registry mutation before moving on. -/
def dispatchGo (env : Nat → CbAct) (ns ev : String) :
    List Nat → Registry → List Nat → Nat → DispatchResult
  | [], R, inv, c => ⟨R, inv, c⟩
  | cb :: rest, R, inv, c =>
    if cb ∈ handlers R ns ev then
      match env cb with
      | CbAct.ok => dispatchGo env ns ev rest R (inv ++ [cb]) c
      | CbAct.throws => dispatchGo env ns ev rest R (inv ++ [cb]) (c + 1)
      | CbAct.unreg ns' ev' cb' =>
        dispatchGo env ns ev rest (removeCb R ns' ev' cb') (inv ++ [cb]) c
    else dispatchGo env ns ev rest R inv c

/-- Embedding of `_handleEvent(namespace, event, data)`: early return when
the namespace map or the event set is missing, otherwise the iteration. -/
def dispatch (env : Nat → CbAct) (R : Registry) (ns ev : String) : DispatchResult :=
  match alGet? R ns with
  | none => ⟨R, [], 0⟩
  | some m =>
    match alGet? m ev with
    | none => ⟨R, [], 0⟩
    | some snap => dispatchGo env ns ev snap R [] 0

end Reg

/-! ## Metadata store with object identity

The spread copies in `setMetadata`/`getMetadata` are shallow, so whether
a caller's mutation of the returned map is visible internally depends on
object identity. This model gives metadata values a heap of addressed
objects: `ref a` is a reference to the object at address `a`, and every
`{ ... }` spread allocates a fresh address holding copies of the (five
own enumerable) field bindings — the bindings, not the objects they
reference. -/

namespace MetaHeap

/-- JavaScript value as far as the metadata map needs: a primitive or a
reference to a heap object. -/
inductive JsVal where
  | str (s : String)
  | num (n : Int)
  | ref (a : Nat)
deriving DecidableEq, Repr

/-- Field bindings of one object, in insertion order. -/
abbrev Obj := List (String × JsVal)

/-- Heap of addressed objects. -/
abbrev Heap := List (Nat × Obj)

/-- Store state: the heap, the next fresh address, and the address the
client's `this.metadata` field currently references. -/
structure MStore where
  heap : Heap
  nextAddr : Nat
  metaAddr : Nat
deriving DecidableEq, Repr

/-- Object currently at an address. -/
def readObj (h : Heap) (a : Nat) : Obj :=
  ((h.find? (fun p => p.1 = a)).map Prod.snd).getD []

/-- Replaces the object at an address. -/
def writeObj (h : Heap) (a : Nat) (o : Obj) : Heap :=
  h.map (fun p => if p.1 = a then (a, o) else p)

/-- Allocates a fresh object, returning its address. -/
def alloc (s : MStore) (o : Obj) : MStore × Nat :=
  (⟨s.heap ++ [(s.nextAddr, o)], s.nextAddr + 1, s.metaAddr⟩, s.nextAddr)

/-- Reads one field of an object. -/
def fieldGet (o : Obj) (k : String) : Option JsVal :=
  (o.find? (fun p => p.1 = k)).map Prod.snd

/-- Assigns one field of an object (`obj[k] = v`): overwrites in place or
appends a new binding. -/
def fieldSet (o : Obj) (k : String) (v : JsVal) : Obj :=
  if (o.find? (fun p => p.1 = k)).isSome then
    o.map (fun p => if p.1 = k then (k, v) else p)
  else o ++ [(k, v)]

/-- Field bindings of `{ ...old, ...upd }`: keys of `old` keep their
position, keys present in `upd` take its value, new keys append. -/
def spreadMerge (old upd : Obj) : Obj :=
  old.map (fun kv =>
    match upd.find? (fun kv' => kv'.1 = kv.1) with
    | some kv' => kv'
    | none => kv)
  ++ upd.filter (fun kv' => ¬ (old.map Prod.fst).contains kv'.1)

/-- Constructor state: `this.metadata = {}` — one empty object. -/
def mkStore : MStore := ⟨[(0, [])], 1, 0⟩

/-- Embedding of `setMetadata(metadata)`: the spread `{ ...this.metadata,
...metadata }` allocates a fresh object with the merged bindings and
repoints `this.metadata` at it. -/
def setMetadata (s : MStore) (patch : Obj) : MStore :=
  let merged := spreadMerge (readObj s.heap s.metaAddr) patch
  let (s1, a) := alloc s merged
  { s1 with metaAddr := a }

/-- Embedding of `getMetadata()`: the spread `{ ...this.metadata }`
allocates a fresh object with copies of the current bindings and returns
a reference to it; the internal `metaAddr` is untouched. -/
def getMetadata (s : MStore) : MStore × Nat :=
  alloc s (readObj s.heap s.metaAddr)

/-- Caller-side mutation `target[k] = v` of the object at an address. -/
def writeField (s : MStore) (a : Nat) (k : String) (v : JsVal) : MStore :=
  { s with heap := writeObj s.heap a (fieldSet (readObj s.heap a) k v) }

/-- Observation of a nested metadata value as later reads see it: follow
the internal map's binding at `k1` to an object and read its field `k2`. -/
def nestedRead (s : MStore) (k1 k2 : String) : Option JsVal :=
  match fieldGet (readObj s.heap s.metaAddr) k1 with
  | some (JsVal.ref r) => fieldGet (readObj s.heap r) k2
  | _ => none

end MetaHeap

/-! ## Concrete instances used by witnesses and counterexamples -/

/-- Client built by `new LibrandaClient({})`: all defaults. -/
def w0 : World := mkWorld none none

/-- Event trace reaching a state with two pending reconnect timers: a
close schedules timer 0, a manual `connect()` leaves it pending, and the
next close schedules timer 1 without cancelling timer 0. -/
def twoTimerTrace : List Ev :=
  [Ev.connectCall, Ev.wsClose 0, Ev.connectCall, Ev.wsClose 1]

/-- Event trace in which one `ready()` registration is fired twice: the
stored callback fires on the first `system:init`, survives the close and
the timer-driven reconnect, and fires again on the second `system:init`. -/
def readyTwiceTrace : List Ev :=
  [Ev.readyCall 7, Ev.connectCall, Ev.wsOpen 0,
   Ev.wsMessage 0 (some ⟨"system", "init", some (MsgData.obj (some "a"))⟩),
   Ev.wsClose 0, Ev.timerFire 0, Ev.wsOpen 1,
   Ev.wsMessage 1 (some ⟨"system", "init", some (MsgData.obj (some "b"))⟩)]

/-- Plugin with only a cleanup function. -/
def pluginC : Plugin := ⟨"p", false, false, true, false⟩

/-- Plugin whose initializer throws. -/
def pluginInitThrow : Plugin := ⟨"q", true, true, false, false⟩

/-- Plugin whose cleanup throws. -/
def pluginCleanupThrow : Plugin := ⟨"r", false, false, true, true⟩

/-- Registry with callbacks 1, 2, 3 registered on `("a", "b")`. -/
def regSample : Reg.Registry :=
  Reg.registerEvent (Reg.registerEvent (Reg.registerEvent [] "a" "b" 1) "a" "b" 2) "a" "b" 3

/-- Callback environment: 1 throws, 2 unregisters itself, 3 returns. -/
def envSample : Nat → Reg.CbAct :=
  fun n =>
    if n = 1 then Reg.CbAct.throws
    else if n = 2 then Reg.CbAct.unreg "a" "b" 2
    else Reg.CbAct.ok

/-- Metadata scenario, step 1: the caller allocates an object `{x: 1}`. -/
def mhA : MetaHeap.MStore × Nat :=
  MetaHeap.alloc MetaHeap.mkStore [("x", MetaHeap.JsVal.num 1)]

/-- Metadata scenario, step 2: `setMetadata({a: <that object>})`, so the
internal map holds a reference to the caller's object. -/
def mhS2 : MetaHeap.MStore := MetaHeap.setMetadata mhA.1 [("a", MetaHeap.JsVal.ref mhA.2)]

/-- Metadata scenario, step 3: `getMetadata()` returns the spread copy. -/
def mhG : MetaHeap.MStore × Nat := MetaHeap.getMetadata mhS2

/-- Metadata scenario, step 4: the caller mutates the nested object
reachable from the returned copy (`copy.a.x = 2`; address `mhA.2` is what
the returned copy's `"a"` binding references). -/
def mhS4 : MetaHeap.MStore := MetaHeap.writeField mhG.1 mhA.2 "x" (MetaHeap.JsVal.num 2)

end Libranda

/-! # Theorems -/

namespace Libranda

namespace Reg

theorem key_alUpdate_fun {β : Type} (k : String) (f : β → β) (p : String × β) :
    (if p.1 = k then (p.1, f p.2) else p).1 = p.1 := by
  by_cases h : p.1 = k <;> simp [h]

theorem alGet?_alUpdate_self {β : Type} (l : List (String × β)) (k : String) (f : β → β) :
    alGet? (alUpdate l k f) k = (alGet? l k).map f := by
  unfold alGet? alUpdate
  rw [List.find?_map]
  have hpred : ((fun p : String × β => decide (p.1 = k)) ∘
      (fun p : String × β => if p.1 = k then (p.1, f p.2) else p))
      = fun p : String × β => decide (p.1 = k) := by
    funext p; simp [Function.comp, key_alUpdate_fun]
  rw [hpred]
  cases hf : l.find? (fun p => p.1 = k) with
  | none => simp
  | some a =>
    have ha := List.find?_some hf
    simp only [decide_eq_true_eq] at ha
    simp [ha]

theorem alGet?_alUpdate_ne {β : Type} (l : List (String × β)) (k k' : String) (f : β → β)
    (h : k' ≠ k) : alGet? (alUpdate l k f) k' = alGet? l k' := by
  unfold alGet? alUpdate
  rw [List.find?_map]
  have hpred : ((fun p : String × β => decide (p.1 = k')) ∘
      (fun p : String × β => if p.1 = k then (p.1, f p.2) else p))
      = fun p : String × β => decide (p.1 = k') := by
    funext p; simp [Function.comp, key_alUpdate_fun]
  rw [hpred]
  cases hf : l.find? (fun p => p.1 = k') with
  | none => simp
  | some a =>
    have ha := List.find?_some hf
    simp only [decide_eq_true_eq] at ha
    have : a.1 ≠ k := by rw [ha]; exact h
    simp [this]

theorem alGet?_append_self {β : Type} (l : List (String × β)) (k : String) (v : β) :
    alGet? (l ++ [(k, v)]) k = some ((alGet? l k).getD v) := by
  unfold alGet?
  rw [List.find?_append]
  cases hf : l.find? (fun p => p.1 = k) with
  | none => simp
  | some a => simp

theorem alGet?_append_ne {β : Type} (l : List (String × β)) (k k' : String) (v : β)
    (h : k' ≠ k) : alGet? (l ++ [(k, v)]) k' = alGet? l k' := by
  unfold alGet?
  rw [List.find?_append]
  cases hf : l.find? (fun p => p.1 = k') with
  | none => simp [Ne.symm h]
  | some a => simp

theorem handlers_registerEvent_self (R : Registry) (ns ev : String) (cb : Nat) :
    handlers (registerEvent R ns ev cb) ns ev = addCb (handlers R ns ev) cb := by
  unfold handlers registerEvent
  cases hR : alGet? R ns with
  | none =>
    rw [if_neg (by simp [hR])]
    rw [alGet?_alUpdate_self]
    rw [alGet?_append_self, hR]
    simp only [Option.getD_none, Option.map_some', Option.some_bind]
    have h0 : alGet? ([] : List (String × List Nat)) ev = none := rfl
    rw [if_neg (by simp [h0]), alGet?_alUpdate_self]
    rw [show ([] : List (String × List Nat)) ++ [(ev, [])] = [(ev, ([] : List Nat))] from rfl]
    have : alGet? [(ev, ([] : List Nat))] ev = some [] := by
      unfold alGet?; simp
    rw [this]
    simp [hR]
  | some m =>
    rw [if_pos (by simp [hR])]
    rw [alGet?_alUpdate_self, hR]
    simp only [Option.map_some', Option.some_bind]
    cases hm : alGet? m ev with
    | none =>
      rw [if_neg (by simp [hm]), alGet?_alUpdate_self, alGet?_append_self, hm]
      simp [hm]
    | some s =>
      rw [if_pos (by simp [hm]), alGet?_alUpdate_self, hm]
      simp [hm]

theorem handlers_removeCb (R : Registry) (ns' ev' : String) (cb' : Nat) (ns ev : String) :
    handlers (removeCb R ns' ev' cb') ns ev =
      if ns = ns' ∧ ev = ev' then (handlers R ns ev).erase cb' else handlers R ns ev := by
  unfold handlers removeCb
  by_cases hns : ns = ns'
  · subst hns
    rw [alGet?_alUpdate_self]
    cases hR : alGet? R ns with
    | none => simp
    | some m =>
      simp only [Option.map_some', Option.some_bind]
      by_cases hev : ev = ev'
      · subst hev
        rw [alGet?_alUpdate_self]
        cases hm : alGet? m ev with
        | none => simp
        | some s => simp
      · rw [alGet?_alUpdate_ne _ _ _ _ hev]
        simp [hev]
  · rw [alGet?_alUpdate_ne _ _ _ _ hns]
    simp [hns]

theorem dispatchGo_invoked_shape (env : Nat → CbAct) (ns ev : String) :
    ∀ (snap : List Nat) (R : Registry) (inv : List Nat) (c : Nat),
      ∃ l, (dispatchGo env ns ev snap R inv c).invoked = inv ++ l ∧ l.Sublist snap := by
  intro snap
  induction snap with
  | nil => intro R inv c; exact ⟨[], by simp [dispatchGo], List.Sublist.refl _⟩
  | cons cb rest ih =>
    intro R inv c
    unfold dispatchGo
    by_cases hmem : cb ∈ handlers R ns ev
    · rw [if_pos hmem]
      cases hact : env cb with
      | ok =>
        obtain ⟨l, hl, hs⟩ := ih R (inv ++ [cb]) c
        exact ⟨cb :: l, by rw [hl]; simp, List.Sublist.cons₂ cb hs⟩
      | throws =>
        obtain ⟨l, hl, hs⟩ := ih R (inv ++ [cb]) (c + 1)
        exact ⟨cb :: l, by rw [hl]; simp, List.Sublist.cons₂ cb hs⟩
      | unreg ns' ev' cb' =>
        obtain ⟨l, hl, hs⟩ := ih (removeCb R ns' ev' cb') (inv ++ [cb]) c
        exact ⟨cb :: l, by rw [hl]; simp, List.Sublist.cons₂ cb hs⟩
    · rw [if_neg hmem]
      obtain ⟨l, hl, hs⟩ := ih R inv c
      exact ⟨l, hl, List.Sublist.cons cb hs⟩

theorem dispatchGo_no_unreg (env : Nat → CbAct) (ns ev : String) :
    ∀ (snap : List Nat) (R : Registry) (inv : List Nat) (c : Nat),
      (∀ cb ∈ snap, isUnreg (env cb) = false) →
      (∀ cb ∈ snap, cb ∈ handlers R ns ev) →
      (dispatchGo env ns ev snap R inv c).invoked = inv ++ snap ∧
      (dispatchGo env ns ev snap R inv c).reg = R := by
  intro snap
  induction snap with
  | nil => intro R inv c _ _; simp [dispatchGo]
  | cons cb rest ih =>
    intro R inv c hno hsub
    unfold dispatchGo
    rw [if_pos (hsub cb (by simp))]
    cases hact : env cb with
    | ok =>
      obtain ⟨h1, h2⟩ := ih R (inv ++ [cb]) c
        (fun x hx => hno x (List.mem_cons_of_mem _ hx))
        (fun x hx => hsub x (List.mem_cons_of_mem _ hx))
      exact ⟨by rw [h1]; simp, h2⟩
    | throws =>
      obtain ⟨h1, h2⟩ := ih R (inv ++ [cb]) (c + 1)
        (fun x hx => hno x (List.mem_cons_of_mem _ hx))
        (fun x hx => hsub x (List.mem_cons_of_mem _ hx))
      exact ⟨by rw [h1]; simp, h2⟩
    | unreg ns' ev' cb' =>
      exact absurd (hno cb (by simp)) (by simp [hact, isUnreg])

theorem dispatchGo_survivor (env : Nat → CbAct) (ns ev : String) (cb : Nat) :
    ∀ (snap : List Nat) (R : Registry) (inv : List Nat) (c : Nat),
      cb ∈ snap → cb ∈ handlers R ns ev →
      (∀ x ∈ snap, env x ≠ CbAct.unreg ns ev cb) →
      cb ∈ (dispatchGo env ns ev snap R inv c).invoked := by
  intro snap
  induction snap with
  | nil => intro R inv c h; exact absurd h (List.not_mem_nil cb)
  | cons hd rest ih =>
    intro R inv c hmem hlive hno
    unfold dispatchGo
    by_cases hhd : hd ∈ handlers R ns ev
    · rw [if_pos hhd]
      by_cases heq : hd = cb
      · subst heq
        cases hact : env hd with
        | ok =>
          obtain ⟨l, hl, _⟩ := dispatchGo_invoked_shape env ns ev rest R (inv ++ [hd]) c
          rw [hl]; simp
        | throws =>
          obtain ⟨l, hl, _⟩ := dispatchGo_invoked_shape env ns ev rest R (inv ++ [hd]) (c + 1)
          rw [hl]; simp
        | unreg ns' ev' cb' =>
          obtain ⟨l, hl, _⟩ :=
            dispatchGo_invoked_shape env ns ev rest (removeCb R ns' ev' cb') (inv ++ [hd]) c
          rw [hl]; simp
      · have hrest : cb ∈ rest := by
          cases List.mem_cons.mp hmem with
          | inl h => exact absurd h.symm heq
          | inr h => exact h
        have hno' : ∀ x ∈ rest, env x ≠ CbAct.unreg ns ev cb :=
          fun x hx => hno x (List.mem_cons_of_mem _ hx)
        cases hact : env hd with
        | ok => exact ih R (inv ++ [hd]) c hrest hlive hno'
        | throws => exact ih R (inv ++ [hd]) (c + 1) hrest hlive hno'
        | unreg ns' ev' cb' =>
          have hlive' : cb ∈ handlers (removeCb R ns' ev' cb') ns ev := by
            rw [handlers_removeCb]
            by_cases hpair : ns = ns' ∧ ev = ev'
            · rw [if_pos hpair]
              have hcb' : cb' ≠ cb := by
                intro h
                exact hno hd (by simp) (by rw [hact, h, hpair.1, hpair.2])
              exact (List.mem_erase_of_ne (Ne.symm hcb')).mpr hlive
            · rw [if_neg hpair]; exact hlive
          exact ih (removeCb R ns' ev' cb') (inv ++ [hd]) c hrest hlive' hno'
    · rw [if_neg hhd]
      have hrest : cb ∈ rest := by
        cases List.mem_cons.mp hmem with
        | inl h => exact absurd (h ▸ hlive) hhd
        | inr h => exact h
      exact ih R inv c hrest hlive (fun x hx => hno x (List.mem_cons_of_mem _ hx))

theorem handlers_of_lookups (R : Registry) (ns ev : String) (m : List (String × List Nat))
    (snap : List Nat) (h1 : alGet? R ns = some m) (h2 : alGet? m ev = some snap) :
    handlers R ns ev = snap := by
  unfold handlers; rw [h1]; simp [h2]

theorem dispatch_invoked_nodup (env : Nat → CbAct) (R : Registry) (ns ev : String)
    (h : (handlers R ns ev).Nodup) : (dispatch env R ns ev).invoked.Nodup := by
  unfold dispatch
  split
  · exact List.nodup_nil
  next m h1 =>
    split
    · exact List.nodup_nil
    next snap h2 =>
      obtain ⟨l, hl, hs⟩ := dispatchGo_invoked_shape env ns ev snap R [] 0
      simp only [hl, List.nil_append]
      exact (handlers_of_lookups R ns ev m snap h1 h2 ▸ h).sublist hs

theorem dispatch_no_unreg (env : Nat → CbAct) (R : Registry) (ns ev : String)
    (h : ∀ cb ∈ handlers R ns ev, isUnreg (env cb) = false) :
    (dispatch env R ns ev).invoked = handlers R ns ev ∧ (dispatch env R ns ev).reg = R := by
  unfold dispatch
  split
  next h1 =>
    refine ⟨?_, rfl⟩
    show ([] : List Nat) = handlers R ns ev
    unfold handlers; rw [h1]; rfl
  next m h1 =>
    split
    next h2 =>
      refine ⟨?_, rfl⟩
      show ([] : List Nat) = handlers R ns ev
      unfold handlers; rw [h1]; simp [h2]
    next snap h2 =>
      have hsnap := handlers_of_lookups R ns ev m snap h1 h2
      obtain ⟨ha, hb⟩ := dispatchGo_no_unreg env ns ev snap R [] 0
        (fun cb hcb => h cb (hsnap ▸ hcb)) (fun cb hcb => hsnap ▸ hcb)
      exact ⟨by rw [ha, hsnap]; rfl, hb⟩

theorem dispatch_survivor (env : Nat → CbAct) (R : Registry) (ns ev : String) (cb : Nat)
    (hcb : cb ∈ handlers R ns ev)
    (h : ∀ x ∈ handlers R ns ev, env x ≠ CbAct.unreg ns ev cb) :
    cb ∈ (dispatch env R ns ev).invoked := by
  unfold dispatch
  split
  next h1 =>
    exact absurd hcb (by unfold handlers; rw [h1]; simp)
  next m h1 =>
    split
    next h2 =>
      exact absurd hcb (by unfold handlers; rw [h1]; simp [h2])
    next snap h2 =>
      have hsnap := handlers_of_lookups R ns ev m snap h1 h2
      exact dispatchGo_survivor env ns ev cb snap R [] 0 (hsnap ▸ hcb) hcb
        (fun x hx => h x (hsnap ▸ hx))

end Reg

/-! ## Shape lemmas: which fields each operation can touch -/

theorem handleEvent_shape (w : World) (ns ev : String) :
    ∃ d, handleEvent w ns ev = { w with dispatchLog := d } :=
  ⟨_, rfl⟩

theorem clearRT_shape (w : World) :
    ∃ p r, clearRT w = { w with pendingTimers := p, reconnectTimer := r } := by
  cases h : w.reconnectTimer with
  | none =>
    refine ⟨w.pendingTimers, none, ?_⟩
    have h1 : clearRT w = w := by unfold clearRT; rw [h]
    rw [h1, ← h]
  | some t => exact ⟨w.pendingTimers.erase t, none, by unfold clearRT; rw [h]⟩

theorem clearRT_reconnectTimer (w : World) : (clearRT w).reconnectTimer = none := by
  unfold clearRT
  cases h : w.reconnectTimer with
  | none => exact h
  | some t => rfl

theorem clearRT_pendingTimers (w : World) :
    (clearRT w).pendingTimers =
      (match w.reconnectTimer with
       | none => w.pendingTimers
       | some t => w.pendingTimers.erase t) := by
  unfold clearRT
  cases h : w.reconnectTimer with
  | none => rfl
  | some t => rfl

theorem clearRT_pendingTimers_sublist (w : World) :
    (clearRT w).pendingTimers.Sublist w.pendingTimers := by
  rw [clearRT_pendingTimers]
  cases w.reconnectTimer with
  | none => exact List.Sublist.refl _
  | some t => exact List.erase_sublist t w.pendingTimers

theorem setRS_shape (w : World) (sid : Nat) (r : RS) :
    ∃ s, setRS w sid r = { w with sockets := s } :=
  ⟨_, rfl⟩

theorem connect_shape (w : World) :
    ∃ b s r n, connect w = { w with isConnecting := b, sockets := s, wsRef := r, nextSid := n } := by
  unfold connect
  split
  · exact ⟨w.isConnecting, w.sockets, w.wsRef, w.nextSid, rfl⟩
  · split
    · exact ⟨w.isConnecting, w.sockets, w.wsRef, w.nextSid, rfl⟩
    · exact ⟨_, _, _, _, rfl⟩

theorem onOpen_shape (w : World) :
    ∃ b p r d, onOpen w =
      { w with isConnecting := b, pendingTimers := p, reconnectTimer := r, dispatchLog := d } := by
  obtain ⟨p, r, h1⟩ := clearRT_shape { w with isConnecting := false }
  obtain ⟨d, h2⟩ := handleEvent_shape (clearRT { w with isConnecting := false }) "system" "connected"
  exact ⟨false, p, r, d, by unfold onOpen; rw [h2, h1]⟩

theorem onClose_shape (w : World) :
    ∃ b c d p r n, onClose w =
      { w with isConnecting := b, clientId := c, dispatchLog := d,
               pendingTimers := p, reconnectTimer := r, nextTid := n } := by
  obtain ⟨d, h2⟩ :=
    handleEvent_shape { w with isConnecting := false, clientId := none } "system" "disconnected"
  unfold onClose
  rw [h2]
  dsimp only
  split
  · exact ⟨_, _, _, _, _, _, rfl⟩
  · exact ⟨false, none, d, w.pendingTimers, w.reconnectTimer, w.nextTid, rfl⟩

theorem onClose_off (w : World) (hf : w.autoReconnect = false) :
    onClose w = handleEvent { w with isConnecting := false, clientId := none }
      "system" "disconnected" := by
  obtain ⟨d, h2⟩ :=
    handleEvent_shape { w with isConnecting := false, clientId := none } "system" "disconnected"
  unfold onClose
  rw [h2]
  dsimp only
  simp [hf]

theorem onMessage_shape (w : World) (m : Option WireMsg) :
    ∃ c rl er d, onMessage w m =
      { w with clientId := c, readyLog := rl, errLog := er, dispatchLog := d } := by
  unfold onMessage handleEvent
  split
  · exact ⟨w.clientId, w.readyLog, _, w.dispatchLog, rfl⟩
  · split
    · split
      · split
        · exact ⟨w.clientId, w.readyLog, _, w.dispatchLog, rfl⟩
        · dsimp only
          split
          · exact ⟨_, _, w.errLog, _, rfl⟩
          · exact ⟨_, w.readyLog, w.errLog, _, rfl⟩
      · exact ⟨w.clientId, w.readyLog, w.errLog, _, rfl⟩
    · exact ⟨w.clientId, w.readyLog, w.errLog, w.dispatchLog, rfl⟩

theorem ready_shape (w : World) (cb : Nat) :
    ∃ o rl, ready w cb = { w with onReady := o, readyLog := rl } := by
  unfold ready
  split
  · exact ⟨w.onReady, _, rfl⟩
  · exact ⟨_, w.readyLog, rfl⟩

theorem registerEvent_shape (w : World) (ns ev : String) (cb : Nat) :
    ∃ eh, registerEvent w ns ev cb = { w with eventHandlers := eh } := by
  unfold registerEvent
  split
  · exact ⟨_, rfl⟩
  · split
    · exact ⟨w.eventHandlers, rfl⟩
    · exact ⟨_, rfl⟩

theorem unregEvent_shape (w : World) (ns ev : String) (cb : Nat) :
    ∃ eh, unregEvent w ns ev cb = { w with eventHandlers := eh } :=
  ⟨_, rfl⟩

theorem send_fst_shape (w : World) (ns ev : String) (d : List (String × String)) :
    ∃ sl, (send w ns ev d).1 = { w with sentLog := sl } := by
  unfold send
  split
  · exact ⟨w.sentLog, rfl⟩
  · split
    · exact ⟨_, rfl⟩
    · exact ⟨w.sentLog, rfl⟩

theorem setMetadata_shape (w : World) (patch : List (String × String)) :
    ∃ m, setMetadata w patch = { w with metadata := m } :=
  ⟨_, rfl⟩

theorem registerPlugin_fst_shape (w : World) (p : Plugin) :
    ∃ pl il, (registerPlugin w p).1 = { w with plugins := pl, initLog := il } := by
  unfold registerPlugin
  split
  · exact ⟨w.plugins, w.initLog, rfl⟩
  · split
    · exact ⟨w.plugins, w.initLog, rfl⟩
    · split
      · split
        · exact ⟨_, _, rfl⟩
        · exact ⟨_, _, rfl⟩
      · exact ⟨_, w.initLog, rfl⟩

theorem unregisterPlugin_shape (w : World) (pid : String) :
    ∃ pl cl el, unregisterPlugin w pid = { w with plugins := pl, cleanupLog := cl, errLog := el } := by
  unfold unregisterPlugin
  split
  · exact ⟨w.plugins, w.cleanupLog, w.errLog, rfl⟩
  · split
    · split
      · exact ⟨_, _, _, rfl⟩
      · exact ⟨_, _, _, rfl⟩
    · exact ⟨_, w.cleanupLog, w.errLog, rfl⟩

theorem foldl_unreg_shape (pids : List String) : ∀ w : World, ∃ pl cl el,
    pids.foldl unregisterPlugin w = { w with plugins := pl, cleanupLog := cl, errLog := el } := by
  induction pids with
  | nil => intro w; exact ⟨w.plugins, w.cleanupLog, w.errLog, rfl⟩
  | cons q qs ih =>
    intro w
    obtain ⟨pl1, cl1, el1, h1⟩ := unregisterPlugin_shape w q
    obtain ⟨pl2, cl2, el2, h2⟩ := ih (unregisterPlugin w q)
    exact ⟨pl2, cl2, el2, by rw [List.foldl_cons, h2, h1]⟩

/-! ## Plugin teardown -/

theorem unregisterPlugin_head (w : World) (p : Plugin) (rest : List Plugin)
    (hw : w.plugins = p :: rest) (hnd : p.pid ∉ rest.map Plugin.pid) :
    (unregisterPlugin w p.pid).plugins = rest ∧
    (unregisterPlugin w p.pid).cleanupLog
      = w.cleanupLog ++ (if p.hasCleanup then [p.pid] else []) := by
  have hfilter : (p :: rest).filter (fun q => q.pid ≠ p.pid) = rest := by
    rw [List.filter_cons, if_neg (by simp)]
    refine List.filter_eq_self.mpr ?_
    intro q hq
    have hne : q.pid ≠ p.pid := fun he => hnd (he ▸ List.mem_map_of_mem Plugin.pid hq)
    simp [hne]
  unfold unregisterPlugin
  rw [hw, List.find?_cons_of_pos _ (by simp)]
  dsimp only
  cases hc : p.hasCleanup with
  | false =>
    rw [if_neg (by simp)]
    refine ⟨?_, by simp⟩
    dsimp only
    rw [hw, hfilter]
  | true =>
    rw [if_pos rfl]
    cases ht : p.cleanupThrows with
    | false =>
      rw [if_neg (by simp)]
      refine ⟨?_, rfl⟩
      dsimp only
      rw [hfilter]
    | true =>
      rw [if_pos rfl]
      refine ⟨?_, rfl⟩
      dsimp only
      rw [hfilter]

theorem teardown_cleanupLog : ∀ (ps : List Plugin) (w : World), w.plugins = ps →
    (ps.map Plugin.pid).Nodup →
    ((ps.map Plugin.pid).foldl unregisterPlugin w).cleanupLog
      = w.cleanupLog ++ (ps.filter (fun p => p.hasCleanup)).map Plugin.pid := by
  intro ps
  induction ps with
  | nil => intro w _ _; simp
  | cons p rest ih =>
    intro w hw hnd
    rw [List.map_cons] at hnd
    rw [List.map_cons, List.foldl_cons]
    obtain ⟨hpl, hcl⟩ :=
      unregisterPlugin_head w p rest hw (List.nodup_cons.mp hnd).1
    rw [ih (unregisterPlugin w p.pid) hpl (List.nodup_cons.mp hnd).2, hcl, List.filter_cons]
    cases hc : p.hasCleanup <;> simp [hc]

/-! ## Field preservation through the teardown loop -/

@[simp]
theorem foldl_unreg_autoReconnect (pids : List String) (v : World) :
    (pids.foldl unregisterPlugin v).autoReconnect = v.autoReconnect := by
  obtain ⟨pl, cl, el, hf⟩ := foldl_unreg_shape pids v
  rw [hf]

@[simp]
theorem foldl_unreg_wsRef (pids : List String) (v : World) :
    (pids.foldl unregisterPlugin v).wsRef = v.wsRef := by
  obtain ⟨pl, cl, el, hf⟩ := foldl_unreg_shape pids v
  rw [hf]

@[simp]
theorem foldl_unreg_clientId (pids : List String) (v : World) :
    (pids.foldl unregisterPlugin v).clientId = v.clientId := by
  obtain ⟨pl, cl, el, hf⟩ := foldl_unreg_shape pids v
  rw [hf]

@[simp]
theorem foldl_unreg_reconnectTimer (pids : List String) (v : World) :
    (pids.foldl unregisterPlugin v).reconnectTimer = v.reconnectTimer := by
  obtain ⟨pl, cl, el, hf⟩ := foldl_unreg_shape pids v
  rw [hf]

@[simp]
theorem foldl_unreg_pendingTimers (pids : List String) (v : World) :
    (pids.foldl unregisterPlugin v).pendingTimers = v.pendingTimers := by
  obtain ⟨pl, cl, el, hf⟩ := foldl_unreg_shape pids v
  rw [hf]

@[simp]
theorem foldl_unreg_timerFireLog (pids : List String) (v : World) :
    (pids.foldl unregisterPlugin v).timerFireLog = v.timerFireLog := by
  obtain ⟨pl, cl, el, hf⟩ := foldl_unreg_shape pids v
  rw [hf]

@[simp]
theorem foldl_unreg_onReady (pids : List String) (v : World) :
    (pids.foldl unregisterPlugin v).onReady = v.onReady := by
  obtain ⟨pl, cl, el, hf⟩ := foldl_unreg_shape pids v
  rw [hf]

@[simp]
theorem foldl_unreg_readyLog (pids : List String) (v : World) :
    (pids.foldl unregisterPlugin v).readyLog = v.readyLog := by
  obtain ⟨pl, cl, el, hf⟩ := foldl_unreg_shape pids v
  rw [hf]

@[simp]
theorem foldl_unreg_sockets (pids : List String) (v : World) :
    (pids.foldl unregisterPlugin v).sockets = v.sockets := by
  obtain ⟨pl, cl, el, hf⟩ := foldl_unreg_shape pids v
  rw [hf]

/-! ## The two sides of `disconnect` -/

theorem disconnect_none (w : World) (h : w.wsRef = none) : disconnect w = clearRT w := by
  obtain ⟨p, r, hc⟩ := clearRT_shape w
  unfold disconnect
  rw [hc]
  dsimp only
  rw [h]

theorem disconnect_some_spec (w : World) (sid : Nat) (h : w.wsRef = some sid) :
    (disconnect w).autoReconnect = false ∧
    (disconnect w).wsRef = none ∧
    (disconnect w).clientId = none ∧
    (disconnect w).reconnectTimer = none ∧
    (disconnect w).pendingTimers = (clearRT w).pendingTimers ∧
    (disconnect w).plugins = [] ∧
    (disconnect w).onReady = w.onReady ∧
    (disconnect w).timerFireLog = w.timerFireLog ∧
    ((w.plugins.map Plugin.pid).Nodup →
       (disconnect w).cleanupLog
         = w.cleanupLog ++ (w.plugins.filter (fun q => q.hasCleanup)).map Plugin.pid) := by
  obtain ⟨p, r, hc⟩ := clearRT_shape w
  have hr : r = none := by
    have h2 := clearRT_reconnectTimer w
    rw [hc] at h2
    exact h2
  subst hr
  unfold disconnect
  rw [hc]
  dsimp only
  rw [h]
  dsimp only [setRS]
  split <;>
    refine ⟨?_, ?_, ?_, ?_, ?_, ?_, ?_, ?_, ?_⟩ <;>
      first
        | (intro hnd; exact teardown_cleanupLog _ _ rfl hnd)
        | simp

theorem disconnect_flag_off (w : World) (hf : w.autoReconnect = false) :
    (disconnect w).autoReconnect = false := by
  cases hws : w.wsRef with
  | none =>
    rw [disconnect_none w hws]
    obtain ⟨p, r, hc⟩ := clearRT_shape w
    rw [hc]
    exact hf
  | some sid => exact (disconnect_some_spec w sid hws).1

theorem disconnect_pending_sub (w : World) :
    (disconnect w).pendingTimers.Sublist w.pendingTimers := by
  cases hws : w.wsRef with
  | none => rw [disconnect_none w hws]; exact clearRT_pendingTimers_sublist w
  | some sid =>
    rw [(disconnect_some_spec w sid hws).2.2.2.2.1]
    exact clearRT_pendingTimers_sublist w

theorem disconnect_fireLog (w : World) :
    (disconnect w).timerFireLog = w.timerFireLog := by
  cases hws : w.wsRef with
  | none =>
    rw [disconnect_none w hws]
    obtain ⟨p, r, hc⟩ := clearRT_shape w
    rw [hc]
  | some sid => exact (disconnect_some_spec w sid hws).2.2.2.2.2.2.2.1

theorem onOpen_spec (v : World) :
    (onOpen v).pendingTimers =
      (match v.reconnectTimer with
       | none => v.pendingTimers
       | some t => v.pendingTimers.erase t) ∧
    (onOpen v).reconnectTimer = none ∧
    (onOpen v).autoReconnect = v.autoReconnect ∧
    (onOpen v).timerFireLog = v.timerFireLog := by
  obtain ⟨d, h2⟩ := handleEvent_shape (clearRT { v with isConnecting := false }) "system" "connected"
  have hp := clearRT_pendingTimers { v with isConnecting := false }
  have hr := clearRT_reconnectTimer { v with isConnecting := false }
  obtain ⟨p, r, hc⟩ := clearRT_shape { v with isConnecting := false }
  rw [hc] at hp hr
  unfold onOpen
  rw [h2, hc]
  dsimp only
  dsimp only at hp hr
  exact ⟨hp, hr, rfl, rfl⟩

/-! ## The reconnect policy stays off once off -/

theorem off_parts (w w' : World) (hf : w.autoReconnect = false)
    (h1 : w'.autoReconnect = w.autoReconnect)
    (h2 : w'.pendingTimers = w.pendingTimers)
    (h3 : w'.timerFireLog = w.timerFireLog) :
    w'.autoReconnect = false ∧ w'.pendingTimers.Sublist w.pendingTimers ∧
    (w.pendingTimers = [] → w'.timerFireLog = w.timerFireLog) := by
  refine ⟨h1.trans hf, ?_, fun _ => h3⟩
  rw [h2]

theorem step_off (w : World) (e : Ev) (hf : w.autoReconnect = false) :
    (applyEv w e).autoReconnect = false ∧
    (applyEv w e).pendingTimers.Sublist w.pendingTimers ∧
    (w.pendingTimers = [] → (applyEv w e).timerFireLog = w.timerFireLog) := by
  cases e with
  | connectCall =>
    simp only [applyEv]
    obtain ⟨b, s, r, n, hsh⟩ := connect_shape w
    exact off_parts w _ hf (by rw [hsh]) (by rw [hsh]) (by rw [hsh])
  | disconnectCall =>
    simp only [applyEv]
    exact ⟨disconnect_flag_off w hf, disconnect_pending_sub w, fun _ => disconnect_fireLog w⟩
  | wsOpen sid =>
    simp only [applyEv]
    split
    · obtain ⟨hp, hr, ha, ht⟩ := onOpen_spec (setRS w sid RS.open_)
      refine ⟨by rw [ha]; exact hf, ?_, fun _ => by rw [ht]; dsimp only [setRS]⟩
      rw [hp]
      dsimp only [setRS]
      cases w.reconnectTimer with
      | none => exact List.Sublist.refl _
      | some t => exact List.erase_sublist t w.pendingTimers
    · exact off_parts w w hf rfl rfl rfl
  | wsClose sid =>
    simp only [applyEv]
    split
    · exact off_parts w w hf rfl rfl rfl
    · have hsf : (setRS w sid RS.closed).autoReconnect = false := hf
      obtain ⟨d, hh⟩ := handleEvent_shape
        { setRS w sid RS.closed with isConnecting := false, clientId := none }
        "system" "disconnected"
      rw [onClose_off _ hsf, hh]
      exact off_parts w _ hf rfl rfl rfl
  | wsError sid =>
    simp only [applyEv]
    split
    · exact off_parts w w hf rfl rfl rfl
    · obtain ⟨d, hh⟩ := handleEvent_shape w "system" "error"
      exact off_parts w _ hf (by rw [onError, hh]) (by rw [onError, hh]) (by rw [onError, hh])
  | wsMessage sid m =>
    simp only [applyEv]
    split
    · obtain ⟨c, rl, er, d, hsh⟩ := onMessage_shape w m
      exact off_parts w _ hf (by rw [hsh]) (by rw [hsh]) (by rw [hsh])
    · exact off_parts w w hf rfl rfl rfl
  | timerFire tid =>
    simp only [applyEv]
    by_cases hmem : tid ∈ w.pendingTimers
    · rw [if_pos hmem]
      obtain ⟨b, s, r, n, hsh⟩ := connect_shape
        { w with pendingTimers := w.pendingTimers.erase tid,
                 timerFireLog := w.timerFireLog ++ [tid] }
      refine ⟨by rw [hsh]; exact hf, ?_, fun hp => absurd (hp ▸ hmem) (List.not_mem_nil tid)⟩
      rw [hsh]
      exact List.erase_sublist tid w.pendingTimers
    · rw [if_neg hmem]
      exact off_parts w w hf rfl rfl rfl
  | readyCall cb =>
    simp only [applyEv]
    obtain ⟨o, rl, hsh⟩ := ready_shape w cb
    exact off_parts w _ hf (by rw [hsh]) (by rw [hsh]) (by rw [hsh])
  | regEvent ns ev cb =>
    simp only [applyEv]
    obtain ⟨eh, hsh⟩ := registerEvent_shape w ns ev cb
    exact off_parts w _ hf (by rw [hsh]) (by rw [hsh]) (by rw [hsh])
  | unregEventCall ns ev cb =>
    simp only [applyEv]
    obtain ⟨eh, hsh⟩ := unregEvent_shape w ns ev cb
    exact off_parts w _ hf (by rw [hsh]) (by rw [hsh]) (by rw [hsh])
  | sendCall ns ev d =>
    simp only [applyEv]
    obtain ⟨sl, hsh⟩ := send_fst_shape w ns ev d
    exact off_parts w _ hf (by rw [hsh]) (by rw [hsh]) (by rw [hsh])
  | setMetaCall patch =>
    simp only [applyEv]
    obtain ⟨mm, hsh⟩ := setMetadata_shape w patch
    exact off_parts w _ hf (by rw [hsh]) (by rw [hsh]) (by rw [hsh])
  | regPlugin p =>
    simp only [applyEv]
    obtain ⟨pl, il, hsh⟩ := registerPlugin_fst_shape w p
    exact off_parts w _ hf (by rw [hsh]) (by rw [hsh]) (by rw [hsh])
  | unregPluginCall pid =>
    simp only [applyEv]
    obtain ⟨pl, cl, el, hsh⟩ := unregisterPlugin_shape w pid
    exact off_parts w _ hf (by rw [hsh]) (by rw [hsh]) (by rw [hsh])

theorem run_off : ∀ (es : List Ev) (w : World), w.autoReconnect = false →
    (run w es).autoReconnect = false ∧
    (run w es).pendingTimers.Sublist w.pendingTimers ∧
    (w.pendingTimers = [] →
       (run w es).pendingTimers = [] ∧ (run w es).timerFireLog = w.timerFireLog) := by
  intro es
  induction es with
  | nil => intro w hf; exact ⟨hf, List.Sublist.refl _, fun hp => ⟨hp, rfl⟩⟩
  | cons e es ih =>
    intro w hf
    obtain ⟨h1, h2, h3⟩ := step_off w e hf
    obtain ⟨g1, g2, g3⟩ := ih (applyEv w e) h1
    refine ⟨g1, g2.trans h2, fun hp => ?_⟩
    have hp' : (applyEv w e).pendingTimers = [] := List.sublist_nil.mp (hp ▸ h2)
    obtain ⟨ga, gb⟩ := g3 hp'
    exact ⟨ga, gb.trans (h3 hp)⟩

/-! ## Heap lemmas for the metadata model -/

namespace MetaHeap

theorem readObj_append_ne (h : Heap) (n : Nat) (o : Obj) (b : Nat) (hne : b ≠ n) :
    readObj (h ++ [(n, o)]) b = readObj h b := by
  unfold readObj
  rw [List.find?_append]
  cases hf : h.find? (fun p => p.1 = b) with
  | none => simp [Ne.symm hne]
  | some a => simp

theorem readObj_append_self (h : Heap) (n : Nat) (o : Obj) (hfresh : ∀ p ∈ h, p.1 ≠ n) :
    readObj (h ++ [(n, o)]) n = o := by
  unfold readObj
  rw [List.find?_append]
  have hnone : h.find? (fun p => p.1 = n) = none :=
    List.find?_eq_none.mpr (fun x hx => by simp [hfresh x hx])
  rw [hnone]
  simp

theorem readObj_writeObj_ne (h : Heap) (a : Nat) (o : Obj) (b : Nat) (hne : b ≠ a) :
    readObj (writeObj h a o) b = readObj h b := by
  unfold readObj writeObj
  rw [List.find?_map]
  have hpred : ((fun p : Nat × Obj => decide (p.1 = b)) ∘ (fun p => if p.1 = a then (a, o) else p))
      = fun p : Nat × Obj => decide (p.1 = b) := by
    funext p
    by_cases hp : p.1 = a
    · simp [Function.comp, hp]
    · simp [Function.comp, hp]
  rw [hpred]
  cases hf : h.find? (fun p => p.1 = b) with
  | none => simp
  | some x =>
    have hx := List.find?_some hf
    simp only [decide_eq_true_eq] at hx
    have hxa : x.1 ≠ a := by rw [hx]; exact hne
    simp [hxa]

end MetaHeap

/-! ## Claims -/

/-- C1 (amended): an explicit `disconnect()` always cancels the referenced
pending timer; when a transport instance exists it also sets
`autoReconnect` to `false`, which no later activity ever resets, the
pending-timer set never grows again, and — when the referenced timer was
the only pending one — no reconnect timer ever fires afterwards. When no
transport instance exists, `disconnect()` reduces to the timer
cancellation alone, leaving `autoReconnect` (and everything else)
untouched. -/
theorem C1_disconnect_reconnect_policy (w : World) (es : List Ev) :
    (∀ sid, w.wsRef = some sid →
       (disconnect w).autoReconnect = false ∧
       (run (disconnect w) es).autoReconnect = false ∧
       (run (disconnect w) es).pendingTimers.Sublist (disconnect w).pendingTimers ∧
       (w.pendingTimers = w.reconnectTimer.toList →
          (disconnect w).pendingTimers = [] ∧
          (run (disconnect w) es).timerFireLog = (disconnect w).timerFireLog)) ∧
    (w.wsRef = none → disconnect w = clearRT w) := by
  constructor
  · intro sid hws
    have spec := disconnect_some_spec w sid hws
    have hf := spec.1
    obtain ⟨r1, r2, r3⟩ := run_off es (disconnect w) hf
    refine ⟨hf, r1, r2, fun hpt => ?_⟩
    have hpe : (disconnect w).pendingTimers = [] := by
      rw [spec.2.2.2.2.1, clearRT_pendingTimers]
      cases hrt : w.reconnectTimer with
      | none => rw [hrt] at hpt; simpa using hpt
      | some t => rw [hrt] at hpt; rw [hpt]; simp [Option.toList]
    exact ⟨hpe, (r3 hpe).2⟩
  · exact disconnect_none w

/-- C1 witness: for the concrete state reached by one `connect()` call,
`disconnect()` turns `autoReconnect` off and no timer fires in a
subsequent close/timer run. -/
theorem C1_witness :
    (disconnect (run w0 [Ev.connectCall])).autoReconnect = false ∧
    (run (disconnect (run w0 [Ev.connectCall])) [Ev.wsClose 0, Ev.timerFire 0]).timerFireLog
      = (disconnect (run w0 [Ev.connectCall])).timerFireLog := by
  have h := C1_disconnect_reconnect_policy (run w0 [Ev.connectCall]) [Ev.wsClose 0, Ev.timerFire 0]
  exact ⟨(h.1 0 (by decide)).1, ((h.1 0 (by decide)).2.2.2 (by decide)).2⟩

/-- C1 counterexample: on the freshly constructed client (no transport
instance), `disconnect()` leaves `autoReconnect` at `true`, contradicting
the claim that the flag is false after every explicit disconnect,
including with no transport present. -/
theorem C1_counterexample :
    w0.wsRef = none ∧ (disconnect w0).autoReconnect = true := by decide

/-- C2 (amended): a fresh `open` reaction and an explicit `disconnect()`
cancel the referenced pending timer — the reference becomes null and that
timer leaves the runtime's pending set; but a close event schedules a new
timer without cancelling an existing one and a manual `connect()` cancels
nothing, so a state with two pending reconnect timers is reachable. -/
theorem C2_timer_cancellation (w : World) (sid : Nat) :
    (rsOf w sid = some RS.connecting →
       (applyEv w (Ev.wsOpen sid)).reconnectTimer = none ∧
       (applyEv w (Ev.wsOpen sid)).pendingTimers =
         (match w.reconnectTimer with
          | none => w.pendingTimers
          | some t => w.pendingTimers.erase t)) ∧
    ((disconnect w).reconnectTimer = none) ∧
    ((disconnect w).pendingTimers =
       (match w.reconnectTimer with
        | none => w.pendingTimers
        | some t => w.pendingTimers.erase t)) ∧
    (run w0 twoTimerTrace).pendingTimers.length = 2 := by
  refine ⟨?_, ?_, ?_, by decide⟩
  · intro hrs
    have happ : applyEv w (Ev.wsOpen sid) = onOpen (setRS w sid RS.open_) := by
      simp only [applyEv]; rw [if_pos hrs]
    obtain ⟨hp, hr, ha, ht⟩ := onOpen_spec (setRS w sid RS.open_)
    rw [happ]
    refine ⟨hr, ?_⟩
    rw [hp]
    dsimp only [setRS]
  · cases hws : w.wsRef with
    | none => rw [disconnect_none w hws]; exact clearRT_reconnectTimer w
    | some sid' => exact (disconnect_some_spec w sid' hws).2.2.2.1
  · cases hws : w.wsRef with
    | none => rw [disconnect_none w hws]; exact clearRT_pendingTimers w
    | some sid' =>
      rw [(disconnect_some_spec w sid' hws).2.2.2.2.1]
      exact clearRT_pendingTimers w

/-- C2 witness: in the concrete state with a pending timer and a fresh
`CONNECTING` socket, the open reaction removes the timer and nulls the
reference. -/
theorem C2_witness :
    (applyEv (run w0 [Ev.connectCall, Ev.wsClose 0, Ev.connectCall])
       (Ev.wsOpen 1)).reconnectTimer = none ∧
    (applyEv (run w0 [Ev.connectCall, Ev.wsClose 0, Ev.connectCall])
       (Ev.wsOpen 1)).pendingTimers = [] := by
  have h := C2_timer_cancellation (run w0 [Ev.connectCall, Ev.wsClose 0, Ev.connectCall]) 1
  refine ⟨(h.1 (by decide)).1, ?_⟩
  rw [(h.1 (by decide)).2]
  decide

/-- C2 counterexample: the four-event trace connect, close, connect, close
reaches a state with two pending reconnect timers, contradicting the
claimed at-most-one invariant (the second close schedules a timer without
first cancelling the still-pending one, and the manual `connect()` did
not cancel it either). -/
theorem C2_counterexample :
    (run w0 twoTimerTrace).pendingTimers = [0, 1] ∧
    1 < (run w0 twoTimerTrace).pendingTimers.length := by decide

/-- C3 (amended): `disconnect()` with no transport instance present only
cancels the pending reconnect timer — it is exactly `clearRT`, so no
plugin teardown runs, no cleanup is invoked, and `clientId`,
`autoReconnect` and the plugin map are untouched. Full teardown (plugins
emptied with every cleanup invoked, `clientId` cleared, `isConnected()`
false, timer reference nulled) happens only when a transport instance
exists. -/
theorem C3_disconnect_when_disconnected (w : World) :
    (w.wsRef = none → disconnect w = clearRT w) ∧
    (∀ sid, w.wsRef = some sid → (w.plugins.map Plugin.pid).Nodup →
       (disconnect w).plugins = [] ∧
       (disconnect w).cleanupLog
         = w.cleanupLog ++ (w.plugins.filter (fun q => q.hasCleanup)).map Plugin.pid ∧
       (disconnect w).clientId = none ∧
       isConnected (disconnect w) = false ∧
       (disconnect w).reconnectTimer = none) := by
  refine ⟨disconnect_none w, fun sid hws hnd => ?_⟩
  have spec := disconnect_some_spec w sid hws
  refine ⟨spec.2.2.2.2.2.1, spec.2.2.2.2.2.2.2.2 hnd, spec.2.2.1, ?_, spec.2.2.2.1⟩
  unfold isConnected
  rw [spec.2.1]

/-- C3 witness: with a registered plugin and a live transport,
`disconnect()` empties the plugin map and invokes the cleanup. -/
theorem C3_witness :
    (disconnect (run w0 [Ev.regPlugin pluginC, Ev.connectCall])).plugins = [] ∧
    (disconnect (run w0 [Ev.regPlugin pluginC, Ev.connectCall])).cleanupLog = ["p"] := by
  have h := (C3_disconnect_when_disconnected
    (run w0 [Ev.regPlugin pluginC, Ev.connectCall])).2 0 (by decide) (by decide)
  refine ⟨h.1, ?_⟩
  rw [h.2.1]
  decide

/-- C3 counterexample: with a registered plugin and no transport instance,
`disconnect()` leaves the plugin registered and invokes no cleanup,
contradicting the claim that plugin teardown still runs. -/
theorem C3_counterexample :
    (run w0 [Ev.regPlugin pluginC]).wsRef = none ∧
    (disconnect (run w0 [Ev.regPlugin pluginC])).plugins = [pluginC] ∧
    (disconnect (run w0 [Ev.regPlugin pluginC])).cleanupLog = [] := by decide

/-- C4 (amended): `ready(cb)` invokes the callback immediately when
`clientId` is truthy and stores it otherwise; a stored callback is invoked
whenever a `system:init` frame arrives while it is stored — but the slot
is never cleared, neither by the invocation nor by `disconnect()`, so the
same stored callback fires again on every later `system:init` (e.g. after
a reconnect) until `ready()` is called afresh. -/
theorem C4_ready_rearmed (w : World) (cb : Nat) (cid : String) (sid : Nat) :
    (truthyId w.clientId = true →
       ready w cb = { w with readyLog := w.readyLog ++ [(cb, w.clientId)] }) ∧
    (truthyId w.clientId = false →
       ready w cb = { w with onReady := some cb }) ∧
    (w.onReady = some cb → rsOf w sid = some RS.open_ →
       ((applyEv w (Ev.wsMessage sid
           (some ⟨"system", "init", some (MsgData.obj (some cid))⟩))).readyLog
          = w.readyLog ++ [(cb, some cid)] ∧
        (applyEv w (Ev.wsMessage sid
           (some ⟨"system", "init", some (MsgData.obj (some cid))⟩))).onReady
          = some cb ∧
        (applyEv w (Ev.wsMessage sid
           (some ⟨"system", "init", some (MsgData.obj (some cid))⟩))).clientId
          = some cid)) ∧
    (disconnect w).onReady = w.onReady := by
  refine ⟨?_, ?_, ?_, ?_⟩
  · intro h; unfold ready; rw [if_pos h]
  · intro h; unfold ready; rw [if_neg (by simp [h])]
  · intro ho hrs
    have happ : applyEv w (Ev.wsMessage sid
        (some ⟨"system", "init", some (MsgData.obj (some cid))⟩))
        = onMessage w (some ⟨"system", "init", some (MsgData.obj (some cid))⟩) := by
      simp only [applyEv]; rw [if_pos hrs]
    rw [happ]
    unfold onMessage
    dsimp only
    rw [if_pos (⟨by decide, by decide⟩ : ("system" : String) ≠ "" ∧ ("init" : String) ≠ "")]
    rw [if_pos (⟨rfl, rfl⟩ : ("system" : String) = "system" ∧ ("init" : String) = "init")]
    dsimp only [dotClientId]
    rw [ho]
    exact ⟨rfl, rfl, rfl⟩
  · cases hws : w.wsRef with
    | none =>
      rw [disconnect_none w hws]
      obtain ⟨p, r, hc⟩ := clearRT_shape w
      rw [hc]
    | some sid' => exact (disconnect_some_spec w sid' hws).2.2.2.2.2.2.1

/-- C4 witness: in the concrete state with callback 7 stored and the
socket open, the `system:init` frame appends exactly one ready-callback
invocation. -/
theorem C4_witness :
    (applyEv (run w0 [Ev.readyCall 7, Ev.connectCall, Ev.wsOpen 0])
       (Ev.wsMessage 0 (some ⟨"system", "init", some (MsgData.obj (some "a"))⟩))).readyLog
      = (run w0 [Ev.readyCall 7, Ev.connectCall, Ev.wsOpen 0]).readyLog ++ [(7, some "a")] := by
  have h := C4_ready_rearmed (run w0 [Ev.readyCall 7, Ev.connectCall, Ev.wsOpen 0]) 7 "a" 0
  exact (h.2.2.1 (by decide) (by decide)).1

/-- C4 counterexample: with a single `ready()` registration, the trace
ready, connect, open, init "a", close, timer-driven reconnect, open,
init "b" invokes the stored callback twice — once per `system:init` —
and the callback is still armed at the end, contradicting the claimed
exactly-once / not-re-armed behaviour. -/
theorem C4_counterexample :
    (run w0 readyTwiceTrace).readyLog = [(7, some "a"), (7, some "b")] ∧
    (run w0 readyTwiceTrace).onReady = some 7 := by decide

/-- C5 (amended): an application callback that throws during dispatch is
caught inside the loop — siblings still run and the registry is
unchanged; a plugin cleanup that throws is caught and logged, the plugin
is still removed, and the rest of the state is untouched; the teardown in
`disconnect` runs every plugin's cleanup regardless of throws. However a
plugin initializer that throws is NOT caught: `registerPlugin` propagates
the exception to its caller, with the plugin already stored. -/
theorem C5_handler_isolation :
    (∀ (R : Reg.Registry) (ns ev : String) (env : Nat → Reg.CbAct),
       (∀ cb ∈ Reg.handlers R ns ev, Reg.isUnreg (env cb) = false) →
       (Reg.dispatch env R ns ev).invoked = Reg.handlers R ns ev ∧
       (Reg.dispatch env R ns ev).reg = R) ∧
    (∀ (w : World) (p : Plugin), w.plugins.find? (fun q => q.pid = p.pid) = some p →
       p.hasCleanup = true → p.cleanupThrows = true →
       unregisterPlugin w p.pid
         = { w with cleanupLog := w.cleanupLog ++ [p.pid], errLog := w.errLog + 1,
                    plugins := w.plugins.filter (fun q => q.pid ≠ p.pid) }) ∧
    (∀ (w : World) (sid : Nat), w.wsRef = some sid → (w.plugins.map Plugin.pid).Nodup →
       (disconnect w).plugins = [] ∧
       (disconnect w).cleanupLog
         = w.cleanupLog ++ (w.plugins.filter (fun q => q.hasCleanup)).map Plugin.pid) ∧
    (∀ (w : World) (p : Plugin), p.hasInit = true → p.initThrows = true →
       p.pid ≠ "" → w.plugins.any (fun q => q.pid = p.pid) = false →
       (registerPlugin w p).2.isSome = true ∧
       (registerPlugin w p).1.plugins = w.plugins ++ [p]) := by
  refine ⟨?_, ?_, ?_, ?_⟩
  · exact fun R ns ev env h => Reg.dispatch_no_unreg env R ns ev h
  · intro w p hfind hc ht
    unfold unregisterPlugin
    rw [hfind]
    dsimp only
    rw [if_pos hc, if_pos ht]
  · intro w sid hws hnd
    have spec := disconnect_some_spec w sid hws
    exact ⟨spec.2.2.2.2.2.1, spec.2.2.2.2.2.2.2.2 hnd⟩
  · intro w p hi ht hpid hany
    unfold registerPlugin
    rw [if_neg hpid, if_neg (by simp [hany]), if_pos hi, if_pos ht]
    exact ⟨rfl, rfl⟩

/-- C5 witness: registering a plugin whose initializer throws makes the
exception reach the caller while the plugin is stored. -/
theorem C5_witness :
    (registerPlugin w0 pluginInitThrow).2.isSome = true ∧
    (registerPlugin w0 pluginInitThrow).1.plugins = w0.plugins ++ [pluginInitThrow] := by
  exact C5_handler_isolation.2.2.2 w0 pluginInitThrow (by decide) (by decide)
    (by decide) (by decide)

/-- C5 counterexample: `plugin.initialize(api)` is invoked with no
surrounding try/catch, so the thrown exception propagates to the caller
of `registerPlugin` (the error channel is non-null) — contradicting the
claim that plugin-initializer failures are caught at the lifecycle
boundary and never reach the caller. -/
theorem C5_counterexample :
    (registerPlugin w0 pluginInitThrow).2 = some "initialize threw" ∧
    (registerPlugin w0 pluginInitThrow).1.plugins = [pluginInitThrow] ∧
    (registerPlugin w0 pluginInitThrow).1.initLog = ["q"] := by decide

/-- C6: the registry has set semantics — re-registering an already-present
callback leaves the handler set unchanged (`addCb` is the no-op `Set.add`)
— dispatch never invokes a callback twice per frame, invokes exactly the
registered set whenever no callback unregisters mid-dispatch (throwing
callbacks included: the loop's catch keeps iterating), and a callback
unregistering handlers mid-dispatch neither crashes the iteration nor
skips any callback that no invoked callback unregistered. -/
theorem C6_registry_dispatch (R : Reg.Registry) (ns ev : String) (env : Nat → Reg.CbAct)
    (hnd : (Reg.handlers R ns ev).Nodup) :
    (∀ cb, Reg.handlers (Reg.registerEvent R ns ev cb) ns ev
        = Reg.addCb (Reg.handlers R ns ev) cb) ∧
    (Reg.dispatch env R ns ev).invoked.Nodup ∧
    ((∀ cb ∈ Reg.handlers R ns ev, Reg.isUnreg (env cb) = false) →
       (Reg.dispatch env R ns ev).invoked = Reg.handlers R ns ev) ∧
    (∀ cb ∈ Reg.handlers R ns ev,
       (∀ x ∈ Reg.handlers R ns ev, env x ≠ Reg.CbAct.unreg ns ev cb) →
       cb ∈ (Reg.dispatch env R ns ev).invoked) :=
  ⟨fun cb => Reg.handlers_registerEvent_self R ns ev cb,
   Reg.dispatch_invoked_nodup env R ns ev hnd,
   fun h => (Reg.dispatch_no_unreg env R ns ev h).1,
   fun cb hcb h => Reg.dispatch_survivor env R ns ev cb hcb h⟩

/-- C6 witness: with callbacks 1, 2, 3 on `("a","b")` under an environment
where 1 throws and 2 unregisters itself, callback 3 is still invoked. -/
theorem C6_witness :
    (Reg.handlers regSample "a" "b").Nodup ∧
    3 ∈ (Reg.dispatch envSample regSample "a" "b").invoked := by
  refine ⟨by decide, ?_⟩
  have h := C6_registry_dispatch regSample "a" "b" envSample (by decide)
  exact h.2.2.2 3 (by decide) (by decide)

/-- C7: `send` with no socket or a non-`OPEN` socket throws the
"not connected" error and changes nothing (in particular writes no
frame); with an `OPEN` socket it writes exactly one frame, carrying the
metadata snapshot taken at send time, and throws nothing. -/
theorem C7_send_guard (w : World) (ns ev : String) (d : List (String × String)) :
    (isConnected w = false → send w ns ev d = (w, some "WebSocket is not connected")) ∧
    (isConnected w = true →
       send w ns ev d
         = ({ w with sentLog := w.sentLog ++ [⟨ns, ev, d, w.metadata⟩] }, none)) := by
  constructor
  · intro h
    unfold send
    cases hws : w.wsRef with
    | none => rfl
    | some sid =>
      unfold isConnected at h
      rw [hws] at h
      dsimp only at h
      dsimp only
      rw [if_neg (of_decide_eq_false h)]
  · intro h
    unfold send
    cases hws : w.wsRef with
    | none =>
      unfold isConnected at h
      rw [hws] at h
      simp at h
    | some sid =>
      unfold isConnected at h
      rw [hws] at h
      dsimp only at h
      dsimp only
      rw [if_pos (of_decide_eq_true h)]

/-- C7 witness: the fresh client rejects a send with no write, and the
connected client writes exactly one frame. -/
theorem C7_witness :
    send w0 "a" "b" [] = (w0, some "WebSocket is not connected") ∧
    send (run w0 [Ev.connectCall, Ev.wsOpen 0]) "a" "b" []
      = ({ run w0 [Ev.connectCall, Ev.wsOpen 0] with
           sentLog := (run w0 [Ev.connectCall, Ev.wsOpen 0]).sentLog
             ++ [⟨"a", "b", [], (run w0 [Ev.connectCall, Ev.wsOpen 0]).metadata⟩] }, none) :=
  ⟨(C7_send_guard w0 "a" "b" []).1 (by decide),
   (C7_send_guard (run w0 [Ev.connectCall, Ev.wsOpen 0]) "a" "b" []).2 (by decide)⟩

/-- C8: `registerPlugin` throws on a falsy id and on a duplicate id, and
in both cases returns the state completely unchanged — so no initializer
runs, the plugin map is untouched, and an already-registered plugin with
the same id stays registered. -/
theorem C8_registerPlugin_guard (w : World) (p : Plugin) :
    (p.pid = "" → registerPlugin w p = (w, some "Plugin must have an id property")) ∧
    (p.pid ≠ "" → w.plugins.any (fun q => q.pid = p.pid) = true →
       registerPlugin w p = (w, some "Plugin is already registered")) := by
  constructor
  · intro h; unfold registerPlugin; rw [if_pos h]
  · intro h hdup; unfold registerPlugin; rw [if_neg h, if_pos hdup]

/-- C8 witness: a plugin with an empty id is rejected without mutation,
and a duplicate registration of `pluginC` is rejected without mutation. -/
theorem C8_witness :
    registerPlugin w0 ⟨"", false, false, false, false⟩
      = (w0, some "Plugin must have an id property") ∧
    registerPlugin (registerPlugin w0 pluginC).1 pluginC
      = ((registerPlugin w0 pluginC).1, some "Plugin is already registered") :=
  ⟨(C8_registerPlugin_guard w0 ⟨"", false, false, false, false⟩).1 rfl,
   (C8_registerPlugin_guard (registerPlugin w0 pluginC).1 pluginC).2 (by decide) (by decide)⟩

/-- C9 (amended): `getMetadata()` returns a fresh object — a shallow copy:
its address is new, the internal map address is unchanged, its bindings
equal the internal bindings, and a top-level assignment on the returned
object never changes the object the internal map address denotes. (Nested
values are shared by reference, so mutating them does change what later
reads observe — see the counterexample.) -/
theorem C9_metadata_shallow_copy (s : MetaHeap.MStore)
    (hlt : s.metaAddr < s.nextAddr)
    (hfresh : ∀ p ∈ s.heap, p.1 < s.nextAddr) (k : String) (v : MetaHeap.JsVal) :
    (MetaHeap.getMetadata s).2 ≠ s.metaAddr ∧
    (MetaHeap.getMetadata s).1.metaAddr = s.metaAddr ∧
    MetaHeap.readObj (MetaHeap.getMetadata s).1.heap (MetaHeap.getMetadata s).2
      = MetaHeap.readObj s.heap s.metaAddr ∧
    MetaHeap.readObj
      (MetaHeap.writeField (MetaHeap.getMetadata s).1 (MetaHeap.getMetadata s).2 k v).heap
      s.metaAddr
      = MetaHeap.readObj s.heap s.metaAddr := by
  refine ⟨ne_of_gt hlt, rfl, ?_, ?_⟩
  · exact MetaHeap.readObj_append_self s.heap s.nextAddr _
      (fun p hp => Nat.ne_of_lt (hfresh p hp))
  · have h1 := MetaHeap.readObj_writeObj_ne (MetaHeap.getMetadata s).1.heap s.nextAddr
      (MetaHeap.fieldSet (MetaHeap.readObj (MetaHeap.getMetadata s).1.heap s.nextAddr) k v)
      s.metaAddr (Nat.ne_of_lt hlt)
    have h2 := MetaHeap.readObj_append_ne s.heap s.nextAddr
      (MetaHeap.readObj s.heap s.metaAddr) s.metaAddr (Nat.ne_of_lt hlt)
    exact h1.trans h2

/-- C9 witness: on the concrete store whose metadata is `{a: {x: 1}}`, a
top-level assignment on the returned copy leaves the internal object
unchanged. -/
theorem C9_witness :
    mhS2.metaAddr < mhS2.nextAddr ∧
    MetaHeap.readObj
      (MetaHeap.writeField (MetaHeap.getMetadata mhS2).1 (MetaHeap.getMetadata mhS2).2 "zz"
        (MetaHeap.JsVal.num 9)).heap mhS2.metaAddr
      = MetaHeap.readObj mhS2.heap mhS2.metaAddr :=
  ⟨by decide,
   (C9_metadata_shallow_copy mhS2 (by decide) (by decide) "zz" (MetaHeap.JsVal.num 9)).2.2.2⟩

/-- C9 counterexample: the spread copy is shallow. With internal metadata
`{a: <obj at address 1>}`, the copy returned by `getMetadata` holds the
same reference (address 1); writing `copy.a.x = 2` through that reference
changes the nested value that later reads of the internal map observe
from 1 to 2 — contradicting the claim that mutating nested values of the
returned map never affects internal state. -/
theorem C9_counterexample :
    MetaHeap.fieldGet (MetaHeap.readObj mhG.1.heap mhG.2) "a"
      = some (MetaHeap.JsVal.ref 1) ∧
    mhS4 = MetaHeap.writeField mhG.1 1 "x" (MetaHeap.JsVal.num 2) ∧
    MetaHeap.nestedRead mhS2 "a" "x" = some (MetaHeap.JsVal.num 1) ∧
    MetaHeap.nestedRead mhS4 "a" "x" = some (MetaHeap.JsVal.num 2) := by decide

/-- C10: a `system:init` frame whose `data` object lacks `clientId` sets
`clientId` to `undefined` (none), still fires a pending ready callback
with that undefined value, and still dispatches the frame; whereas a
`system:init` frame with no `data` field at all makes the
`message.data.clientId` access throw — the handler's catch logs it and
the frame is dropped with no state change and no dispatch. -/
theorem C10_init_frame_edge_cases (w : World) (sid : Nat) (h : rsOf w sid = some RS.open_) :
    ((applyEv w (Ev.wsMessage sid
        (some ⟨"system", "init", some (MsgData.obj none)⟩))).clientId = none ∧
     (∀ cb, w.onReady = some cb →
        (applyEv w (Ev.wsMessage sid
           (some ⟨"system", "init", some (MsgData.obj none)⟩))).readyLog
          = w.readyLog ++ [(cb, none)]) ∧
     (w.onReady = none →
        (applyEv w (Ev.wsMessage sid
           (some ⟨"system", "init", some (MsgData.obj none)⟩))).readyLog = w.readyLog) ∧
     (applyEv w (Ev.wsMessage sid
        (some ⟨"system", "init", some (MsgData.obj none)⟩))).dispatchLog
       = w.dispatchLog ++ [("system", "init", handlersFor w "system" "init")]) ∧
    ((applyEv w (Ev.wsMessage sid (some ⟨"system", "init", none⟩))).errLog = w.errLog + 1 ∧
     (applyEv w (Ev.wsMessage sid (some ⟨"system", "init", none⟩))).clientId = w.clientId ∧
     (applyEv w (Ev.wsMessage sid (some ⟨"system", "init", none⟩))).readyLog = w.readyLog ∧
     (applyEv w (Ev.wsMessage sid (some ⟨"system", "init", none⟩))).dispatchLog
       = w.dispatchLog) := by
  have happ1 : applyEv w (Ev.wsMessage sid (some ⟨"system", "init", some (MsgData.obj none)⟩))
      = onMessage w (some ⟨"system", "init", some (MsgData.obj none)⟩) := by
    simp only [applyEv]; rw [if_pos h]
  have happ2 : applyEv w (Ev.wsMessage sid (some ⟨"system", "init", none⟩))
      = onMessage w (some ⟨"system", "init", none⟩) := by
    simp only [applyEv]; rw [if_pos h]
  constructor
  · rw [happ1]
    unfold onMessage
    dsimp only
    rw [if_pos (⟨by decide, by decide⟩ : ("system" : String) ≠ "" ∧ ("init" : String) ≠ "")]
    rw [if_pos (⟨rfl, rfl⟩ : ("system" : String) = "system" ∧ ("init" : String) = "init")]
    dsimp only [dotClientId]
    cases ho : w.onReady with
    | some cb =>
      refine ⟨rfl, fun cb' hcb' => ?_, fun hn => ?_, rfl⟩
      · cases hcb'
        rfl
      · cases hn
    | none =>
      refine ⟨rfl, fun cb' hcb' => ?_, fun _ => rfl, rfl⟩
      cases hcb'
  · rw [happ2]
    unfold onMessage
    dsimp only
    rw [if_pos (⟨by decide, by decide⟩ : ("system" : String) ≠ "" ∧ ("init" : String) ≠ "")]
    rw [if_pos (⟨rfl, rfl⟩ : ("system" : String) = "system" ∧ ("init" : String) = "init")]
    dsimp only [dotClientId]
    exact ⟨rfl, rfl, rfl, rfl⟩

/-- C10 witness: on the concretely connected client, the init frame with
no data field is dropped after logging — error count up by one, no
dispatch — while the init frame with an empty data object clears
`clientId` and is dispatched. -/
theorem C10_witness :
    (applyEv (run w0 [Ev.connectCall, Ev.wsOpen 0])
       (Ev.wsMessage 0 (some ⟨"system", "init", none⟩))).errLog
      = (run w0 [Ev.connectCall, Ev.wsOpen 0]).errLog + 1 ∧
    (applyEv (run w0 [Ev.connectCall, Ev.wsOpen 0])
       (Ev.wsMessage 0 (some ⟨"system", "init", some (MsgData.obj none)⟩))).clientId = none := by
  have h := C10_init_frame_edge_cases (run w0 [Ev.connectCall, Ev.wsOpen 0]) 0 (by decide)
  exact ⟨h.2.1, h.1.1⟩

end Libranda
